import Mathlib

/-!
Verification of the size-estimation and image-transcoding pipeline of
`src/scripts/main.js` (an image-to-PDF / image-compression utility).

The JavaScript numeric computations (all on small decimal constants) are
embedded over `ℚ`; byte counts are `ℕ` cast into `ℚ` where the source
multiplies them by fractional factors.  The source file contains two
revisions of the script; definitions below note the line ranges they embed.
-/

namespace ImageToolkit

/-- A file in the working set, as stored in `pdfFiles` / `singleFile`
(`{ id, file, url, name, size }`).  `isPng` records the result of the
mime-type test applied to `file.type` (the source tests
`file.type.includes('png')` or `file.type === 'image/png'`); `naturalWidth`
and `naturalHeight` are the pixel dimensions of the decoded image
(`img.naturalWidth` / `img.naturalHeight` after `loadImage`). -/
structure PdfFile where
  id : ℕ
  size : ℕ
  isPng : Bool
  naturalWidth : ℕ
  naturalHeight : ℕ
deriving DecidableEq

/-- The reduction-factor heuristic shared verbatim by the three estimators
(lines 398-402, 252-256 and 695-699): `qualityRatio = quality / 100`,
`reductionFactor = 1 - 0.9 * (1 - qualityRatio)`, clamped below at `0.1`. -/
def reductionFactor (quality : ℚ) : ℚ :=
  let qualityRatio := quality / 100
  let maxCompressionFactor : ℚ := 0.9
  let rf := 1 - maxCompressionFactor * (1 - qualityRatio)
  if rf < 0.1 then 0.1 else rf

/-- Single-file size estimate of `updateCompressionSize`
(lines 933-947, equivalently 395-408): `estimatedBytes = size * reductionFactor`,
and when the file's type is PNG the override
`estimatedBytes = Math.max(size * 0.8, estimatedBytes)`. -/
def updateCompressionSize_estimate (size : ℕ) (quality : ℚ) (isPng : Bool) : ℚ :=
  let estimatedBytes := (size : ℚ) * reductionFactor quality
  if isPng then max ((size : ℚ) * 0.8) estimatedBytes else estimatedBytes

/-- Total of the original sizes of the working set, `getTotalPdfOriginalSize`
(lines 221-223): `pdfFiles.reduce((total, file) => total + file.size, 0)`. -/
def getTotalPdfOriginalSize (pdfFiles : List PdfFile) : ℕ :=
  pdfFiles.foldl (fun total file => total + file.size) 0

/-- Batch estimate of the earlier revision's `updatePdfCompressionSize`
(lines 251-258): the reduction factor is applied to the summed total,
with no per-file lossless handling. -/
def updatePdfCompressionSize_estimate (pdfFiles : List PdfFile) (quality : ℚ) : ℚ :=
  (getTotalPdfOriginalSize pdfFiles : ℚ) * reductionFactor quality

/-- Batch estimate of the later revision's `updatePdfSizeInfo`
(lines 701-710): starting from `estimatedBytes = 0`, each file adds
`Math.max(size * 0.8, size * reductionFactor)` when its type includes
`png`, and `size * reductionFactor` otherwise. -/
def updatePdfSizeInfo_estimate (pdfFiles : List PdfFile) (quality : ℚ) : ℚ :=
  let rf := reductionFactor quality
  pdfFiles.foldl
    (fun estimatedBytes file =>
      if file.isPng then
        estimatedBytes + max ((file.size : ℚ) * 0.8) ((file.size : ℚ) * rf)
      else
        estimatedBytes + (file.size : ℚ) * rf)
    0

section EstimatorLemmas

lemma reductionFactor_eq_of_one_le {q : ℚ} (h1 : 1 ≤ q) :
    reductionFactor q = 1 - 0.9 * (1 - q / 100) := by
  unfold reductionFactor
  simp only
  rw [if_neg]
  intro hlt
  have : (109 : ℚ) / 1000 ≤ 1 - 0.9 * (1 - q / 100) := by
    have : (1 : ℚ) / 100 ≤ q / 100 := by linarith
    norm_num
    linarith
  norm_num at hlt
  linarith

lemma reductionFactor_lower {q : ℚ} (h1 : 1 ≤ q) :
    1 / 10 ≤ reductionFactor q := by
  rw [reductionFactor_eq_of_one_le h1]
  norm_num
  linarith

lemma reductionFactor_upper {q : ℚ} (h1 : 1 ≤ q) (h2 : q ≤ 100) :
    reductionFactor q ≤ 1 := by
  rw [reductionFactor_eq_of_one_le h1]
  norm_num
  linarith

end EstimatorLemmas

/-- C1: for every originalBytes ≥ 0 and every quality in [1,100] with the
lossless-format flag off, the estimate lies in
[0.1 × originalBytes, originalBytes], and equals exactly 0 when
originalBytes = 0. -/
theorem updateCompressionSize_estimate_in_bounds
    (size : ℕ) (quality : ℚ) (h1 : 1 ≤ quality) (h2 : quality ≤ 100) :
    (1 / 10) * (size : ℚ) ≤ updateCompressionSize_estimate size quality false ∧
    updateCompressionSize_estimate size quality false ≤ (size : ℚ) ∧
    (size = 0 → updateCompressionSize_estimate size quality false = 0) := by
  have hs : (0 : ℚ) ≤ (size : ℚ) := Nat.cast_nonneg size
  have hlo := reductionFactor_lower h1
  have hhi := reductionFactor_upper h1 h2
  unfold updateCompressionSize_estimate
  simp only [if_neg]
  refine ⟨?_, ?_, ?_⟩
  · calc (1 / 10) * (size : ℚ) = (size : ℚ) * (1 / 10) := by ring
    _ ≤ (size : ℚ) * reductionFactor quality :=
        mul_le_mul_of_nonneg_left hlo hs
  · calc (size : ℚ) * reductionFactor quality ≤ (size : ℚ) * 1 :=
        mul_le_mul_of_nonneg_left hhi hs
    _ = (size : ℚ) := mul_one _
  · intro h0
    subst h0
    simp

/-- Witness for C1 at size = 1000, quality = 50. -/
theorem updateCompressionSize_estimate_in_bounds_witness :
    (1 : ℚ) ≤ 50 ∧ (50 : ℚ) ≤ 100 ∧
    ((1 / 10) * ((1000 : ℕ) : ℚ) ≤ updateCompressionSize_estimate 1000 50 false ∧
     updateCompressionSize_estimate 1000 50 false ≤ ((1000 : ℕ) : ℚ) ∧
     ((1000 : ℕ) = 0 → updateCompressionSize_estimate 1000 50 false = 0)) :=
  ⟨by norm_num, by norm_num,
   updateCompressionSize_estimate_in_bounds 1000 50 (by norm_num) (by norm_num)⟩

/-- Output-format tag passed to `doc.addImage` (`'JPEG'` or `'PNG'`). -/
inductive OutputFormat where
  | JPEG : OutputFormat
  | PNG : OutputFormat
deriving DecidableEq

/-- Format determination inside `processAndDownloadPDF` (lines 1127-1142):
with grayscale on, `grayscaleImage` is used and the format is set to JPEG;
otherwise the format is PNG exactly when the file's type includes `png` and
`quality === 1.0` (the caller passes `quality = qualityPercent / 100`), and
JPEG in every other case. -/
def processAndDownloadPDF_pageFormat (isPng : Bool) (quality : ℚ)
    (applyGrayscale : Bool) : OutputFormat :=
  if applyGrayscale then OutputFormat.JPEG
  else if isPng = true ∧ quality = 1 then OutputFormat.PNG
  else OutputFormat.JPEG

/-- C2: the chosen output format is PNG exactly for a PNG source at
qualityPercent = 100 with grayscale off; every other combination yields
JPEG.  The quality value the source compares with 1.0 is
qualityPercent / 100. -/
theorem processAndDownloadPDF_pageFormat_policy
    (isPng : Bool) (qualityPercent : ℚ) (applyGrayscale : Bool) :
    (processAndDownloadPDF_pageFormat isPng (qualityPercent / 100) applyGrayscale
        = OutputFormat.PNG ↔
      isPng = true ∧ qualityPercent = 100 ∧ applyGrayscale = false) ∧
    (¬(isPng = true ∧ qualityPercent = 100 ∧ applyGrayscale = false) →
      processAndDownloadPDF_pageFormat isPng (qualityPercent / 100) applyGrayscale
        = OutputFormat.JPEG) := by
  have hq : qualityPercent / 100 = 1 ↔ qualityPercent = 100 := by
    constructor
    · intro h
      have := congrArg (fun x : ℚ => x * 100) h
      simpa using this
    · intro h
      rw [h]
      norm_num
  unfold processAndDownloadPDF_pageFormat
  rcases applyGrayscale with _ | _
  · simp only [Bool.false_eq_true, if_false]
    by_cases hp : isPng = true
    · by_cases h100 : qualityPercent = 100
      · rw [if_pos ⟨hp, hq.mpr h100⟩]
        simp [hp, h100]
      · rw [if_neg (by rintro ⟨_, hone⟩; exact h100 (hq.mp hone))]
        simp [h100]
    · rw [if_neg (by rintro ⟨h, _⟩; exact hp h)]
      simp [hp]
  · simp

/-- Geometry `(x, y, printWidth, printHeight)` of one image placed on a PDF
page, in page units (mm). -/
structure PageGeometry where
  x : ℚ
  y : ℚ
  printWidth : ℚ
  printHeight : ℚ
deriving DecidableEq

/-- Page-layout computation of `processAndDownloadPDF` (lines 1148-1160,
equivalently 611-621): `imgRatio = naturalWidth / naturalHeight`,
`printWidth = pdfWidth - 2*margin`, `printHeight = printWidth / imgRatio`;
if that exceeds `pdfHeight - 2*margin` the height is clamped and the width
re-derived as `printHeight * imgRatio`; the result is centered on the page. -/
def layoutImage (naturalWidth naturalHeight pdfWidth pdfHeight margin : ℚ) :
    PageGeometry :=
  let imgRatio := naturalWidth / naturalHeight
  let printWidth := pdfWidth - 2 * margin
  let printHeight := printWidth / imgRatio
  let printHeight2 := if printHeight > pdfHeight - 2 * margin
    then pdfHeight - 2 * margin else printHeight
  let printWidth2 := if printHeight > pdfHeight - 2 * margin
    then printHeight2 * imgRatio else printWidth
  { x := (pdfWidth - printWidth2) / 2
    y := (pdfHeight - printHeight2) / 2
    printWidth := printWidth2
    printHeight := printHeight2 }

/-- C4: for positive image dimensions and a configuration with positive
printable area, the computed geometry fits in the printable bounds and its
width/height ratio equals the image's pixel aspect ratio (in particular
within 1e-6). -/
theorem layoutImage_fits_and_preserves_ratio
    (naturalWidth naturalHeight pdfWidth pdfHeight margin : ℚ)
    (hw : 0 < naturalWidth) (hh : 0 < naturalHeight)
    (hpw : 0 < pdfWidth - 2 * margin) (hph : 0 < pdfHeight - 2 * margin) :
    (layoutImage naturalWidth naturalHeight pdfWidth pdfHeight margin).printWidth
        ≤ pdfWidth - 2 * margin ∧
    (layoutImage naturalWidth naturalHeight pdfWidth pdfHeight margin).printHeight
        ≤ pdfHeight - 2 * margin ∧
    |(layoutImage naturalWidth naturalHeight pdfWidth pdfHeight margin).printWidth /
        (layoutImage naturalWidth naturalHeight pdfWidth pdfHeight margin).printHeight -
      naturalWidth / naturalHeight| < 1 / 1000000 := by
  have hr : 0 < naturalWidth / naturalHeight := div_pos hw hh
  unfold layoutImage
  simp only
  set r := naturalWidth / naturalHeight with hrdef
  by_cases hcase : (pdfWidth - 2 * margin) / r > pdfHeight - 2 * margin
  · rw [if_pos hcase, if_pos hcase]
    refine ⟨?_, le_refl _, ?_⟩
    · have h1 : (pdfHeight - 2 * margin) * r < ((pdfWidth - 2 * margin) / r) * r :=
        mul_lt_mul_of_pos_right hcase hr
      rw [div_mul_cancel₀ _ (ne_of_gt hr)] at h1
      exact le_of_lt h1
    · rw [mul_comm, mul_div_assoc, div_self (ne_of_gt hph), mul_one,
        sub_self, abs_zero]
      norm_num
  · rw [if_neg hcase, if_neg hcase]
    push_neg at hcase
    refine ⟨le_refl _, hcase, ?_⟩
    have hne : (pdfWidth - 2 * margin) / r ≠ 0 :=
      ne_of_gt (div_pos hpw hr)
    rw [div_div_eq_mul_div, mul_comm, ← div_div_eq_mul_div,
      div_self (ne_of_gt hpw)]
    norm_num

/-- Witness for C4 at a 1000 × 500 image on A4 portrait with 10 mm margin. -/
theorem layoutImage_fits_and_preserves_ratio_witness :
    (0 : ℚ) < 1000 ∧ (0 : ℚ) < 500 ∧
    (0 : ℚ) < 210 - 2 * 10 ∧ (0 : ℚ) < 297 - 2 * 10 ∧
    ((layoutImage 1000 500 210 297 10).printWidth ≤ 210 - 2 * 10 ∧
     (layoutImage 1000 500 210 297 10).printHeight ≤ 297 - 2 * 10 ∧
     |(layoutImage 1000 500 210 297 10).printWidth /
        (layoutImage 1000 500 210 297 10).printHeight - 1000 / 500| <
       1 / 1000000) :=
  ⟨by norm_num, by norm_num, by norm_num, by norm_num,
   layoutImage_fits_and_preserves_ratio 1000 500 210 297 10
     (by norm_num) (by norm_num) (by norm_num) (by norm_num)⟩

/-- C5 counterexample: on a 1000 × 500 image on A4 portrait with 10 mm
margin the code does not produce y = 91: it centers on the full page, so
y = (297 - 95) / 2 = 101. -/
theorem layoutImage_concrete_not_y91 :
    layoutImage 1000 500 210 297 10 ≠
      { x := 10, y := 91, printWidth := 190, printHeight := 95 } := by
  norm_num [layoutImage]

/-- C5 amended: the layout of a 1000 × 500 image on A4 portrait with 10 mm
margin is x = 10, y = 101, width = 190, height = 95. -/
theorem layoutImage_concrete :
    layoutImage 1000 500 210 297 10 =
      { x := 10, y := 101, printWidth := 190, printHeight := 95 } := by
  norm_num [layoutImage]

/-- One RGBA pixel of an `ImageData` buffer; each channel is a byte value. -/
structure RGBA where
  r : ℕ
  g : ℕ
  b : ℕ
  a : ℕ
deriving DecidableEq

/-- Rounding used when a computed value is stored back into a
`Uint8ClampedArray` entry: round to the nearest integer, ties to even. -/
def roundHalfEven (x : ℚ) : ℤ :=
  if x - ⌊x⌋ < 1 / 2 then ⌊x⌋
  else if 1 / 2 < x - ⌊x⌋ then ⌊x⌋ + 1
  else if ⌊x⌋ % 2 = 0 then ⌊x⌋ else ⌊x⌋ + 1

/-- Storing a numeric value into a `Uint8ClampedArray` entry: round to the
nearest integer (ties to even) and clamp into [0, 255]. -/
def clampByte (x : ℚ) : ℕ := (min 255 (max 0 (roundHalfEven x))).toNat

lemma roundHalfEven_intCast (n : ℤ) : roundHalfEven (n : ℚ) = n := by
  unfold roundHalfEven
  rw [Int.floor_intCast, sub_self, if_pos (by norm_num)]

lemma clampByte_le (x : ℚ) : clampByte x ≤ 255 := by
  unfold clampByte
  exact Int.toNat_le.mpr (min_le_left _ _)

lemma clampByte_natCast (n : ℕ) (h : n ≤ 255) : clampByte (n : ℚ) = n := by
  unfold clampByte
  have h1 : ((n : ℤ) : ℚ) = (n : ℚ) := by push_cast; ring
  rw [← h1, roundHalfEven_intCast]
  rw [max_eq_right (by exact_mod_cast Nat.zero_le n)]
  rw [min_eq_right (by exact_mod_cast h)]
  exact Int.toNat_natCast n

/-- Per-pixel body of the loop in `grayscaleImage` (lines 1041-1048,
equivalently 514-519): the luminance
`avg = data[i]*0.299 + data[i+1]*0.587 + data[i+2]*0.114` is written back
to the R, G and B channels; the alpha channel is untouched. -/
def grayscalePixel (p : RGBA) : RGBA :=
  let avg : ℚ := (p.r : ℚ) * 0.299 + (p.g : ℚ) * 0.587 + (p.b : ℚ) * 0.114
  { r := clampByte avg, g := clampByte avg, b := clampByte avg, a := p.a }

/-- Pixel-buffer action of `grayscaleImage` (lines 1030-1052): the loop
walks the RGBA buffer four bytes at a time, i.e. maps `grayscalePixel`
over the pixels. -/
def grayscaleImage (data : List RGBA) : List RGBA := data.map grayscalePixel

lemma grayscalePixel_idem (p : RGBA) :
    grayscalePixel (grayscalePixel p) = grayscalePixel p := by
  unfold grayscalePixel
  simp only
  set avg : ℚ := (p.r : ℚ) * 0.299 + (p.g : ℚ) * 0.587 + (p.b : ℚ) * 0.114
    with havg
  set v : ℕ := clampByte avg with hv
  have hsum : (v : ℚ) * 0.299 + (v : ℚ) * 0.587 + (v : ℚ) * 0.114 = (v : ℚ) := by
    rw [← mul_add, ← mul_add]
    norm_num
  rw [hsum, clampByte_natCast v (clampByte_le avg)]

/-- C7: the grayscale transform is idempotent on every RGBA bitmap. -/
theorem grayscaleImage_idempotent (data : List RGBA) :
    grayscaleImage (grayscaleImage data) = grayscaleImage data := by
  simp only [grayscaleImage, List.map_map, Function.comp_def, grayscalePixel_idem]

/-- One page of the assembled PDF document: the id of the source image it
was produced from, the format tag passed to `doc.addImage`, and the
computed placement. -/
structure Page where
  srcId : ℕ
  format : OutputFormat
  geometry : PageGeometry
deriving DecidableEq

/-- One iteration of the loop of `processAndDownloadPDF`
(lines 1120-1166): transcode the image, determine the format tag, and
compute the placement on an A4 portrait page (210 × 297 mm) with a
10 mm margin. -/
def makePage (quality : ℚ) (applyGrayscale : Bool) (fileObj : PdfFile) : Page :=
  { srcId := fileObj.id
    format := processAndDownloadPDF_pageFormat fileObj.isPng quality applyGrayscale
    geometry := layoutImage (fileObj.naturalWidth : ℚ) (fileObj.naturalHeight : ℚ)
      210 297 10 }

/-- The `for (const fileObj of pdfFiles)` loop of `processAndDownloadPDF`
(lines 1118-1166, equivalently 593-626): the state is the list of pages
drawn so far, the `firstPage` flag, and the number of `doc.addPage()`
calls made (`addPage` runs before drawing whenever `firstPage` is false). -/
def processAndDownloadPDF_loop (quality : ℚ) (applyGrayscale : Bool)
    (pdfFiles : List PdfFile) : List Page × Bool × ℕ :=
  pdfFiles.foldl
    (fun st fileObj =>
      let pageBreaks := if st.2.1 then st.2.2 else st.2.2 + 1
      (st.1 ++ [makePage quality applyGrayscale fileObj], false, pageBreaks))
    ([], true, 0)

/-- Removal from the working set, `removeFile` (lines 840-843):
`pdfFiles = pdfFiles.filter(f => f.id !== id)`. -/
def removeFile (id : ℕ) (pdfFiles : List PdfFile) : List PdfFile :=
  pdfFiles.filter (fun f => f.id != id)

lemma processAndDownloadPDF_loop_go_pages (quality : ℚ) (applyGrayscale : Bool)
    (l : List PdfFile) :
    ∀ (acc : List Page) (fp : Bool) (k : ℕ),
      (l.foldl
        (fun st fileObj =>
          let pageBreaks := if st.2.1 then st.2.2 else st.2.2 + 1
          (st.1 ++ [makePage quality applyGrayscale fileObj], false, pageBreaks))
        (acc, fp, k)).1 = acc ++ l.map (makePage quality applyGrayscale) := by
  induction l with
  | nil => intro acc fp k; simp
  | cons f tl ih =>
    intro acc fp k
    simp only [List.foldl_cons, List.map_cons]
    rw [ih]
    simp

lemma processAndDownloadPDF_loop_go_breaks (quality : ℚ) (applyGrayscale : Bool)
    (l : List PdfFile) :
    ∀ (acc : List Page) (k : ℕ),
      (l.foldl
        (fun st fileObj =>
          let pageBreaks := if st.2.1 then st.2.2 else st.2.2 + 1
          (st.1 ++ [makePage quality applyGrayscale fileObj], false, pageBreaks))
        (acc, false, k)).2.2 = k + l.length := by
  induction l with
  | nil => intro acc k; simp
  | cons f tl ih =>
    intro acc k
    simp only [List.foldl_cons, List.length_cons]
    rw [ih, if_neg (by simp)]
    omega

lemma processAndDownloadPDF_loop_pages (quality : ℚ) (applyGrayscale : Bool)
    (pdfFiles : List PdfFile) :
    (processAndDownloadPDF_loop quality applyGrayscale pdfFiles).1
      = pdfFiles.map (makePage quality applyGrayscale) := by
  unfold processAndDownloadPDF_loop
  rw [processAndDownloadPDF_loop_go_pages]
  simp

/-- C3: the assembly loop emits exactly one page per source image, in input
order; the first image causes no page break and every subsequent image
causes exactly one (`length - 1` breaks in total); and removing one image
from the working set before assembly removes exactly the pages bearing its
id, preserving the relative order of the rest. -/
theorem processAndDownloadPDF_page_order (quality : ℚ) (applyGrayscale : Bool)
    (pdfFiles : List PdfFile) (id : ℕ) :
    (processAndDownloadPDF_loop quality applyGrayscale pdfFiles).1
        = pdfFiles.map (makePage quality applyGrayscale) ∧
    (processAndDownloadPDF_loop quality applyGrayscale pdfFiles).1.length
        = pdfFiles.length ∧
    (processAndDownloadPDF_loop quality applyGrayscale pdfFiles).2.2
        = pdfFiles.length - 1 ∧
    (processAndDownloadPDF_loop quality applyGrayscale (removeFile id pdfFiles)).1
        = (processAndDownloadPDF_loop quality applyGrayscale pdfFiles).1.filter
            (fun p => p.srcId != id) := by
  refine ⟨processAndDownloadPDF_loop_pages quality applyGrayscale pdfFiles, ?_, ?_, ?_⟩
  · rw [processAndDownloadPDF_loop_pages]
    simp
  · unfold processAndDownloadPDF_loop
    cases pdfFiles with
    | nil => simp
    | cons f tl =>
      simp only [List.foldl_cons, List.length_cons]
      rw [processAndDownloadPDF_loop_go_breaks]
      simp
  · rw [processAndDownloadPDF_loop_pages, processAndDownloadPDF_loop_pages]
    unfold removeFile
    induction pdfFiles with
    | nil => simp
    | cons f tl ih =>
      by_cases hid : f.id = id
      · simp [List.filter_cons, hid, makePage, ih]
      · simp [List.filter_cons, hid, makePage, ih]

/-- Failure kinds surfaced by the PDF export flow. -/
inductive PdfError where
  | noInput : PdfError
deriving DecidableEq

/-- The user-initiated PDF export: `showNameModal` (lines 960-964,
equivalently 425-429) rejects an empty working set with the error alert
"Please select at least one image first." and never opens the download
modal, so `processAndDownloadPDF` is not reached; with a non-empty set the
confirmed download runs the page loop. -/
def pdfExportFlow (pdfFiles : List PdfFile) (quality : ℚ)
    (applyGrayscale : Bool) : Except PdfError (List Page) :=
  if pdfFiles.length = 0 then Except.error PdfError.noInput
  else Except.ok (processAndDownloadPDF_loop quality applyGrayscale pdfFiles).1

/-- C9: exporting an empty working set fails with the no-input error and
produces no document artifact at all. -/
theorem pdfExportFlow_empty_fails (quality : ℚ) (applyGrayscale : Bool) :
    pdfExportFlow [] quality applyGrayscale = Except.error PdfError.noInput ∧
    ∀ pages : List Page,
      pdfExportFlow [] quality applyGrayscale ≠ Except.ok pages := by
  refine ⟨rfl, ?_⟩
  intro pages h
  simp [pdfExportFlow] at h

lemma updatePdfSizeInfo_estimate_go (q : ℚ) (l : List PdfFile) :
    ∀ c : ℚ,
      l.foldl
        (fun estimatedBytes file =>
          if file.isPng then
            estimatedBytes +
              max ((file.size : ℚ) * 0.8) ((file.size : ℚ) * reductionFactor q)
          else
            estimatedBytes + (file.size : ℚ) * reductionFactor q)
        c
      = c + (l.map (fun f => updateCompressionSize_estimate f.size q f.isPng)).sum := by
  induction l with
  | nil => intro c; simp
  | cons f tl ih =>
    intro c
    simp only [List.foldl_cons, List.map_cons, List.sum_cons]
    rw [ih]
    unfold updateCompressionSize_estimate
    by_cases hp : f.isPng <;> simp [hp] <;> ring

lemma getTotalPdfOriginalSize_eq_sum (l : List PdfFile) :
    getTotalPdfOriginalSize l = (l.map (fun f => f.size)).sum := by
  unfold getTotalPdfOriginalSize
  suffices h : ∀ c : ℕ,
      l.foldl (fun total file => total + file.size) c
        = c + (l.map (fun f => f.size)).sum by
    simpa using h 0
  induction l with
  | nil => intro c; simp
  | cons f tl ih =>
    intro c
    simp only [List.foldl_cons, List.map_cons, List.sum_cons]
    rw [ih]
    omega

/-- C6: the batch estimate of `updatePdfSizeInfo` is exactly the sum of the
per-image single-file estimates, each image's own PNG flag deciding whether
the 0.8 lossless floor applies to it. -/
theorem updatePdfSizeInfo_estimate_is_sum (pdfFiles : List PdfFile) (quality : ℚ) :
    updatePdfSizeInfo_estimate pdfFiles quality
      = (pdfFiles.map
          (fun f => updateCompressionSize_estimate f.size quality f.isPng)).sum := by
  simp only [updatePdfSizeInfo_estimate]
  rw [updatePdfSizeInfo_estimate_go, zero_add]

/-- C10: on a batch with no PNG member, the earlier revision's estimator
(reduction factor applied to the summed total) and the later revision's
estimator (sum of per-file estimates) agree exactly. -/
theorem updatePdf_estimators_agree_without_png (pdfFiles : List PdfFile)
    (quality : ℚ) (h : ∀ f ∈ pdfFiles, f.isPng = false) :
    updatePdfCompressionSize_estimate pdfFiles quality
      = updatePdfSizeInfo_estimate pdfFiles quality := by
  simp only [updatePdfSizeInfo_estimate, updatePdfCompressionSize_estimate]
  rw [updatePdfSizeInfo_estimate_go, zero_add, getTotalPdfOriginalSize_eq_sum]
  induction pdfFiles with
  | nil => simp
  | cons f tl ih =>
    have hf : f.isPng = false := h f (List.mem_cons_self f tl)
    have htl : ∀ g ∈ tl, g.isPng = false :=
      fun g hg => h g (List.mem_cons_of_mem f hg)
    simp only [List.map_cons, List.sum_cons, Nat.cast_add]
    rw [add_mul, ih htl]
    unfold updateCompressionSize_estimate
    simp [hf]

/-- Witness for C10 on a concrete two-file non-PNG batch at quality 50. -/
theorem updatePdf_estimators_agree_without_png_witness :
    (∀ f ∈ [({ id := 1, size := 1000000, isPng := false,
                naturalWidth := 800, naturalHeight := 600 } : PdfFile),
             ({ id := 2, size := 2000000, isPng := false,
                naturalWidth := 1024, naturalHeight := 768 } : PdfFile)],
        f.isPng = false) ∧
    updatePdfCompressionSize_estimate
        [({ id := 1, size := 1000000, isPng := false,
            naturalWidth := 800, naturalHeight := 600 } : PdfFile),
         ({ id := 2, size := 2000000, isPng := false,
            naturalWidth := 1024, naturalHeight := 768 } : PdfFile)] 50
      = updatePdfSizeInfo_estimate
          [({ id := 1, size := 1000000, isPng := false,
              naturalWidth := 800, naturalHeight := 600 } : PdfFile),
           ({ id := 2, size := 2000000, isPng := false,
              naturalWidth := 1024, naturalHeight := 768 } : PdfFile)] 50 :=
  ⟨by simp,
   updatePdf_estimators_agree_without_png _ 50 (by simp)⟩

/-- C8 counterexample: at qualityPercent 200, outside [1,100], the
single-file estimator performs no validation and returns the predicted
size 1900 for a 1000-byte file instead of failing. -/
theorem updateCompressionSize_estimate_out_of_range_value :
    updateCompressionSize_estimate 1000 200 false = 1900 := by
  norm_num [updateCompressionSize_estimate, reductionFactor]

/-- C8 amended: for qualityPercent outside [1,100] the estimator still
returns a value: at or below 0 the clamp floor makes it exactly
0.1 × originalBytes, and above 100 it exceeds the original size whenever
originalBytes is positive. -/
theorem updateCompressionSize_estimate_no_validation
    (size : ℕ) (quality : ℚ) (hq : quality < 1 ∨ 100 < quality) :
    (quality ≤ 0 →
      updateCompressionSize_estimate size quality false
        = (size : ℚ) * (1 / 10)) ∧
    (100 < quality → 0 < size →
      (size : ℚ) < updateCompressionSize_estimate size quality false) := by
  constructor
  · intro h0
    unfold updateCompressionSize_estimate reductionFactor
    simp only [Bool.false_eq_true, if_false]
    by_cases hlt : 1 - (0.9 : ℚ) * (1 - quality / 100) < 0.1
    · rw [if_pos hlt]
      norm_num
    · rw [if_neg hlt]
      push_neg at hlt
      have heq : 1 - (0.9 : ℚ) * (1 - quality / 100) = 0.1 := by
        have hub : 1 - (0.9 : ℚ) * (1 - quality / 100) ≤ 0.1 := by
          norm_num
          linarith
        have hlb : (0.1 : ℚ) ≤ 1 - (0.9 : ℚ) * (1 - quality / 100) := hlt
        linarith
      rw [heq]
      norm_num
  · intro h100 hs
    unfold updateCompressionSize_estimate reductionFactor
    simp only [Bool.false_eq_true, if_false]
    have hrf : (1 : ℚ) < 1 - 0.9 * (1 - quality / 100) := by
      norm_num
      linarith
    rw [if_neg (not_lt.mpr (le_of_lt (lt_trans (by norm_num) hrf)))]
    have hsq : (0 : ℚ) < (size : ℚ) := by exact_mod_cast hs
    nlinarith [hsq, hrf]

/-- Witness for the amended C8 at size = 1000, quality = 0. -/
theorem updateCompressionSize_estimate_no_validation_witness :
    updateCompressionSize_estimate 1000 0 false = ((1000 : ℕ) : ℚ) * (1 / 10) :=
  (updateCompressionSize_estimate_no_validation 1000 0
    (Or.inl (by norm_num))).1 (by norm_num)

end ImageToolkit
